import Mathlib

/-!
A shallow embedding of the hunt-lifecycle subsystem found in
`flows/hunts.go` of the Velociraptor server (hunt creation, mutation,
listing), together with theorems checking the natural-language
specification against it.

Machine integers are modelled as `Nat` (timestamps fit comfortably;
no arithmetic overflow is relevant to the embedded code paths).
Fallible external services (datastore, repository manager, launcher,
journal, notifier) are modelled as `Except String`/`Option` valued
fields of an environment record, so every embedded function is a pure,
executable Lean function of its inputs and that environment.
-/

/-- The hunt state enum (`api_proto.Hunt_State`): UNSET, PAUSED,
RUNNING, STOPPED, ARCHIVED. -/
inductive HuntState where
  | UNSET
  | PAUSED
  | RUNNING
  | STOPPED
  | ARCHIVED
deriving DecidableEq, Repr

/-- The fields of `api_proto.HuntStats` used by `flows/hunts.go`:
only the `Stopped` flag is consulted there. -/
structure HuntStats where
  stopped : Bool := false
deriving DecidableEq, Repr

/-- The fields of the hunt start request used by `flows/hunts.go`.
`artifacts` is `Option (List String)` because Go distinguishes a nil
slice from a non-nil empty slice, and `CreateHunt` tests `== nil`. -/
structure StartRequest where
  artifacts : Option (List String) := none
  compiledCollectorArgs : List String := []
deriving DecidableEq, Repr

/-- The fields of `api_proto.Hunt` used by `flows/hunts.go`.
Timestamps are microseconds since the epoch, as in the Go code. -/
structure Hunt where
  huntId : String := ""
  huntDescription : String := ""
  state : HuntState := HuntState.UNSET
  createTime : Nat := 0
  startTime : Nat := 0
  expires : Nat := 0
  startRequest : Option StartRequest := none
  artifacts : List String := []
  artifactSources : List String := []
  stats : Option HuntStats := none
deriving DecidableEq, Repr

/-- Go's zero value for `api_proto.HuntStats` (what
`hunt.Stats = &api_proto.HuntStats{}` assigns). -/
def zeroStats : HuntStats := {}

/-- One lowercase hex digit, as produced by Go's `encoding/hex`
(`0`-`9` then `a`-`f`). -/
def hexDigitChar (n : Nat) : Char :=
  if n < 10 then Char.ofNat (48 + n) else Char.ofNat (87 + n)

/-- `encoding/hex` encoding of one byte: high nibble then low nibble. -/
def hexEncodeByte (b : Nat) : List Char :=
  [hexDigitChar (b % 256 / 16), hexDigitChar (b % 16)]

/-- `hex.Encode` over a byte sequence: two lowercase hex characters per
input byte. -/
def hexEncode (bs : List Nat) : String :=
  String.mk (bs.map hexEncodeByte).flatten

/-- Modelled from the spec: the fixed type tag prepended to every hunt
identifier (`constants.HUNT_PREFIX`, whose defining file is not part of
the excerpt; the spec only requires it to be a fixed string). -/
def huntTypeTag : String := "H."

/-- `GetNewHuntId` from `flows/hunts.go`: an 8-byte output buffer is
filled by hex-encoding a 4-byte buffer `buf` that `crypto/rand.Read`
filled; the tag is prepended. The four random bytes are passed in
explicitly, since randomness is external to the embedding. -/
def GetNewHuntId (b0 b1 b2 b3 : Nat) : String :=
  huntTypeTag ++ hexEncode [b0, b1, b2, b3]

/-- `api_proto.ListHuntsRequest`: the fields used by `ListHunts`. -/
structure ListHuntsRequest where
  offset : Nat := 0
  count : Nat := 0
  includeArchived : Bool := false
deriving DecidableEq, Repr

/-- The `constants.STOP_ITERATION` sentinel: the only error value the
`ListHunts` callback can return to `ApplyFuncOnHunts`. -/
inductive IterErr where
  | stopIteration
deriving DecidableEq, Repr

/-- The iteration of `ApplyFuncOnHunts` with the callback of
`ListHunts`, over the dispatcher mirror in mirror order. `acc` is
`result.Items` so far. The callback skips while `len(result.Items) <
in.Offset`, returns `STOP_ITERATION` once `len(result.Items) >=
in.Offset+in.Count`, and otherwise appends the hunt unless it is
`ARCHIVED` and `in.IncludeArchived` is unset. -/
def listHuntsGo (req : ListHuntsRequest) :
    List Hunt → List Hunt → List Hunt × Option IterErr
  | [], acc => (acc, none)
  | h :: rest, acc =>
    if acc.length < req.offset then
      listHuntsGo req rest acc
    else if req.offset + req.count ≤ acc.length then
      (acc, some IterErr.stopIteration)
    else if req.includeArchived = true ∨ h.state ≠ HuntState.ARCHIVED then
      listHuntsGo req rest (acc ++ [h])
    else
      listHuntsGo req rest acc

/-- Insertion step of the embedding of `sort.Slice` with comparator
`Items[i].CreateTime > Items[j].CreateTime`. -/
def insertByCreateTimeDesc (h : Hunt) : List Hunt → List Hunt
  | [] => [h]
  | x :: xs =>
    if x.createTime ≤ h.createTime then h :: x :: xs
    else x :: insertByCreateTimeDesc h xs

/-- Embedding of the `sort.Slice` call in `ListHunts`: sorts the
collected items by `CreateTime` descending (newest first). `sort.Slice`
promises some permutation ordered by the comparator; this insertion
sort is the deterministic representative used by the model. -/
def sortByCreateTimeDesc : List Hunt → List Hunt
  | [] => []
  | x :: xs => insertByCreateTimeDesc x (sortByCreateTimeDesc xs)

/-- `ListHunts` from `flows/hunts.go`, given the dispatcher mirror in
its iteration order: run the callback over the mirror, convert the
`STOP_ITERATION` sentinel to success, and sort the collected items by
`CreateTime` descending. Returns the items and the error returned to
the caller. -/
def ListHunts (req : ListHuntsRequest) (mirror : List Hunt) :
    List Hunt × Option IterErr :=
  let out := listHuntsGo req mirror []
  let err := match out.2 with
    | some IterErr.stopIteration => none
    | e => e
  (sortByCreateTimeDesc out.1, err)

/-- Environment of the `ModifyHunt` mutator closure: the outcome of
`services.GetJournal`, the outcome of `journal.PushRowsToArtifact`,
and the current time in microseconds (`time.Now().UnixNano()/1000`).
The journal row's content is not modelled (it never flows back). -/
structure ModifyEnv where
  journal : Except String Unit := Except.ok ()
  pushRowsResult : Except String Unit := Except.ok ()
  now : Nat := 0
deriving Repr

/-- Result of the mutator closure: the error it returns to the
dispatcher (`none` means the dispatcher commits the hunt) and the hunt
record after the closure's in-place mutations. -/
structure MutatorOut where
  err : Option String
  hunt : Hunt
deriving DecidableEq, Repr

/-- The mutator closure passed by `ModifyHunt` in `flows/hunts.go` to
`dispatcher.ModifyHunt`, acting on the mirror's hunt record. `hm` is
the `hunt_modification` request. In order: a nil `Stats` is an invalid
hunt; a non-empty `HuntDescription` is a pure description edit; a
requested `ARCHIVED` state archives (journalling the event); a
requested `RUNNING` state starts the hunt unless `Stats.Stopped`; any
other requested state stops the hunt. -/
def huntModifier (env : ModifyEnv) (hm : Hunt) (hunt : Hunt) :
    MutatorOut :=
  match hunt.stats with
  | none => ⟨some "Invalid hunt", hunt⟩
  | some stats =>
    if hm.huntDescription ≠ "" then
      ⟨none, { hunt with huntDescription := hm.huntDescription }⟩
    else if hm.state = HuntState.ARCHIVED then
      let hunt1 := { hunt with state := HuntState.ARCHIVED }
      match env.journal with
      | Except.error e => ⟨some e, hunt1⟩
      | Except.ok _ =>
        match env.pushRowsResult with
        | Except.error e => ⟨some e, hunt1⟩
        | Except.ok _ => ⟨none, hunt1⟩
    else if hm.state = HuntState.RUNNING then
      if stats.stopped then
        ⟨some "Can not start a stopped hunt.", hunt⟩
      else
        ⟨none, { hunt with state := HuntState.RUNNING,
                           startTime := env.now }⟩
    else
      ⟨none, { hunt with state := HuntState.STOPPED }⟩

/-- The artifact repository visible through
`manager.GetGlobalRepository`: artifact name to declared source names
(`repository.Get` + `artifact_obj.Sources`). -/
structure Repository where
  artifacts : List (String × List String) := []
deriving DecidableEq, Repr

/-- Environment of `CreateHunt`: outcomes of each external call it
makes, the clock, and the identifier `GetNewHuntId` would return.
`notifier` is `none` when `services.GetNotifier()` returns nil,
otherwise the outcome of `NotifyByRegex`. -/
structure CreateEnv where
  db : Except String Unit := Except.ok ()
  repositoryManager : Except String Unit := Except.ok ()
  globalRepository : Except String Repository := Except.ok {}
  launcher : Except String Unit := Except.ok ()
  compiled : Except String (List String) := Except.ok []
  notifier : Option (Except String Unit) := none
  setSubjectResult : Except String Unit := Except.ok ()
  refreshResult : Except String Unit := Except.ok ()
  now : Nat := 0
  freshId : String := ""
deriving Repr

/-- Seven days in microseconds: the default hunt expiry horizon. -/
def sevenDays : Nat := 7 * 24 * 60 * 60 * 1000000

/-- `GetArtifactSources` from `flows/hunts.go`: resolve one artifact
name to its declared source names via the global repository, returning
the empty list when the repository manager or repository lookup fails
or the artifact is absent. -/
def GetArtifactSources (env : CreateEnv) (artifact : String) :
    List String :=
  match env.repositoryManager with
  | Except.error _ => []
  | Except.ok _ =>
    match env.globalRepository with
    | Except.error _ => []
    | Except.ok repo =>
      match repo.artifacts.lookup artifact with
      | some sources => sources
      | none => []

/-- Result of `CreateHunt`: the returned hunt id string, the returned
error, the caller's hunt record after the call (the Go code mutates it
in place), and whether `db.SetSubject` (the durable write) was
reached. -/
structure CreateHuntResult where
  huntId : String
  err : Option String
  hunt : Hunt
  setSubjectCalled : Bool
deriving DecidableEq, Repr

/-- The tail of `CreateHunt` from the `db.SetSubject` call on: persist
the hunt, then trigger a dispatcher refresh, returning the hunt id
together with the refresh error. -/
def finishCreate (env : CreateEnv) (hunt : Hunt) : CreateHuntResult :=
  match env.setSubjectResult with
  | Except.error e => ⟨"", some e, hunt, true⟩
  | Except.ok _ =>
    match env.refreshResult with
    | Except.error e => ⟨hunt.huntId, some e, hunt, true⟩
    | Except.ok _ => ⟨hunt.huntId, none, hunt, true⟩

/-- Step 2 of `CreateHunt`: `hunt.Stats = &api_proto.HuntStats{}`
when nil. -/
def defaultStats (hunt : Hunt) : Hunt :=
  match hunt.stats with
  | none => { hunt with stats := some zeroStats }
  | some _ => hunt

/-- Step 2 of `CreateHunt`: `hunt.HuntId = GetNewHuntId()` when
empty. -/
def defaultId (freshId : String) (hunt : Hunt) : Hunt :=
  if hunt.huntId = "" then { hunt with huntId := freshId } else hunt

/-- Step 3 of `CreateHunt`: stamp `CreateTime` with now and default a
zero `Expires` to now plus seven days. -/
def stampTimes (now : Nat) (hunt : Hunt) : Hunt :=
  let h := { hunt with createTime := now }
  if h.expires = 0 then { h with expires := now + sevenDays } else h

/-- Step 4 of `CreateHunt`: set `Artifacts` from the start request and
derive `ArtifactSources` by resolving each artifact (`path.Join` of
artifact and source name). -/
def denormalize (env : CreateEnv) (arts : List String) (hunt : Hunt) :
    Hunt :=
  { hunt with
    artifacts := arts,
    artifactSources :=
      (arts.map (fun a =>
        (GetArtifactSources env a).map (fun s => a ++ "/" ++ s))).flatten }

/-- Step 5 of `CreateHunt`: append the compiled collector args to the
start request stored in the hunt. -/
def appendCompiled (sr : StartRequest) (compiled : List String)
    (hunt : Hunt) : Hunt :=
  { hunt with
    startRequest := some { sr with
      compiledCollectorArgs := sr.compiledCollectorArgs ++ compiled } }

/-- `CreateHunt` from `flows/hunts.go`, step by step: get the
datastore; default `Stats` and `HuntId`; reject a nil `StartRequest`
or nil artifact slice; stamp `CreateTime`, default `Expires` to now
plus seven days, reject expiry before creation; denormalize
`Artifacts`/`ArtifactSources`; obtain repository manager, repository
and launcher; compile the start request and append the compiled form;
resolve `UNSET` to `PAUSED`, or on `RUNNING` set `StartTime` and
notify clients if a notifier exists; finally persist and refresh. -/
def CreateHunt (env : CreateEnv) (hunt0 : Hunt) : CreateHuntResult :=
  match env.db with
  | Except.error e => ⟨"", some e, hunt0, false⟩
  | Except.ok _ =>
    let hunt2 := defaultId env.freshId (defaultStats hunt0)
    match hunt2.startRequest with
    | none => ⟨"", some "No artifacts to collect.", hunt2, false⟩
    | some sr =>
      match sr.artifacts with
      | none => ⟨"", some "No artifacts to collect.", hunt2, false⟩
      | some arts =>
        let hunt4 := stampTimes env.now hunt2
        if hunt4.expires < hunt4.createTime then
          ⟨"", some "Hunt expiry is in the past!", hunt4, false⟩
        else
          let hunt5 := denormalize env arts hunt4
          match env.repositoryManager with
          | Except.error e => ⟨"", some e, hunt5, false⟩
          | Except.ok _ =>
            match env.globalRepository with
            | Except.error e => ⟨"", some e, hunt5, false⟩
            | Except.ok _ =>
              match env.launcher with
              | Except.error e => ⟨"", some e, hunt5, false⟩
              | Except.ok _ =>
                match env.compiled with
                | Except.error e => ⟨"", some e, hunt5, false⟩
                | Except.ok compiled =>
                  let hunt6 := appendCompiled sr compiled hunt5
                  if hunt6.state = HuntState.UNSET then
                    finishCreate env
                      { hunt6 with state := HuntState.PAUSED }
                  else if hunt6.state = HuntState.RUNNING then
                    let hunt7 :=
                      { hunt6 with startTime := hunt6.createTime }
                    match env.notifier with
                    | some (Except.error e) => ⟨"", some e, hunt7, false⟩
                    | _ => finishCreate env hunt7
                  else
                    finishCreate env hunt6

/-- The match condition of the `ListHunts` callback
(`in.IncludeArchived || hunt.State != Hunt_ARCHIVED`) as a Boolean
predicate, for stating filter characterizations. -/
def listHuntsKeep (req : ListHuntsRequest) (h : Hunt) : Bool :=
  req.includeArchived || decide (h.state ≠ HuntState.ARCHIVED)

/-- A five-hunt dispatcher mirror presented in creation order
t1 < t2 < t3 < t4 < t5 (all non-archived). -/
def mirrorAsc : List Hunt :=
  [{ huntId := "H.1", state := HuntState.PAUSED, createTime := 1 },
   { huntId := "H.2", state := HuntState.PAUSED, createTime := 2 },
   { huntId := "H.3", state := HuntState.PAUSED, createTime := 3 },
   { huntId := "H.4", state := HuntState.PAUSED, createTime := 4 },
   { huntId := "H.5", state := HuntState.PAUSED, createTime := 5 }]

/-- A STOPPED hunt whose stats carry the `Stopped` flag. -/
def stoppedHunt : Hunt :=
  { huntId := "H.s", state := HuntState.STOPPED,
    stats := some { stopped := true } }

/-- A PAUSED hunt that is allowed to start. -/
def pausedHunt : Hunt :=
  { huntId := "H.p", state := HuntState.PAUSED,
    stats := some { stopped := false } }

/-- A modification request asking for the RUNNING state. -/
def runRequest : Hunt := { state := HuntState.RUNNING }

/-- An ARCHIVED hunt used to exercise the default mutator branch. -/
def archivedHunt : Hunt :=
  { huntId := "H.z", state := HuntState.ARCHIVED,
    stats := some { stopped := false } }

/-- A modification request asking for the PAUSED state. -/
def pauseRequest : Hunt := { state := HuntState.PAUSED }

/-- An environment in which every external call of `CreateHunt`
succeeds (empty repository, no notifier configured). -/
def envGood : CreateEnv := { now := 100, freshId := "H.deadbeef" }

/-- A creation request whose artifact list is present but empty — a
non-nil zero-length slice in Go. -/
def huntEmptyArtifactList : Hunt :=
  { state := HuntState.PAUSED,
    startRequest := some { artifacts := some [] } }

/-- A creation request with a nil `Artifacts` slice. -/
def huntNilArtifacts : Hunt :=
  { state := HuntState.PAUSED,
    startRequest := some { artifacts := none } }

/-- The all-defaults hunt record (empty id, nil stats, nil start
request). -/
def emptyHunt : Hunt := {}

/-- The failure conditions the claim enumerates, all of which occur
before the durable-store write in `CreateHunt`: validation failure
(nil start request or nil artifact slice), expiry in the past,
repository-manager or repository lookup failure, artifact compilation
failure, and notifier failure when the hunt is created in the RUNNING
state. -/
def createHuntEarlyFailure (env : CreateEnv) (hunt : Hunt) : Prop :=
  hunt.startRequest = none
  ∨ (∃ sr, hunt.startRequest = some sr ∧ sr.artifacts = none)
  ∨ (hunt.expires ≠ 0 ∧ hunt.expires < env.now)
  ∨ (∃ e, env.repositoryManager = Except.error e)
  ∨ (∃ e, env.globalRepository = Except.error e)
  ∨ (∃ e, env.compiled = Except.error e)
  ∨ (hunt.state = HuntState.RUNNING ∧
      ∃ e, env.notifier = some (Except.error e))

/-- An environment in which artifact compilation fails. -/
def envCompileFails : CreateEnv :=
  { envGood with compiled := Except.error "compile failed" }

/-- A creation request that passes validation. -/
def huntValid : Hunt :=
  { state := HuntState.PAUSED,
    startRequest := some { artifacts := some ["A"] } }

/-- Helper: the length of `hexEncode` is twice the number of bytes. -/
theorem hexEncode_length (bs : List Nat) :
    (hexEncode bs).length = 2 * bs.length := by
  induction bs with
  | nil => rfl
  | cons b bs ih =>
    simp [hexEncode, hexEncodeByte, String.length] at ih ⊢
    omega

/-- Helper: `hexDigitChar` is injective on nibbles. -/
theorem hexDigitChar_inj :
    ∀ x < 16, ∀ y < 16, hexDigitChar x = hexDigitChar y → x = y := by
  decide

/-- Helper: a byte is determined by its two hex nibbles. -/
theorem byte_of_nibbles (x y : Nat)
    (hhi : x / 16 = y / 16) (hlo : x % 16 = y % 16) : x = y := by
  omega

/-- Field preservation for `defaultStats`. -/
@[simp] theorem defaultStats_huntId (hunt : Hunt) :
    (defaultStats hunt).huntId = hunt.huntId := by
  unfold defaultStats
  split <;> rfl

@[simp] theorem defaultStats_startRequest (hunt : Hunt) :
    (defaultStats hunt).startRequest = hunt.startRequest := by
  unfold defaultStats
  split <;> rfl

@[simp] theorem defaultStats_expires (hunt : Hunt) :
    (defaultStats hunt).expires = hunt.expires := by
  unfold defaultStats
  split <;> rfl

@[simp] theorem defaultStats_state (hunt : Hunt) :
    (defaultStats hunt).state = hunt.state := by
  unfold defaultStats
  split <;> rfl

/-- Field preservation for `defaultId`. -/
@[simp] theorem defaultId_startRequest (i : String) (hunt : Hunt) :
    (defaultId i hunt).startRequest = hunt.startRequest := by
  unfold defaultId
  split <;> rfl

@[simp] theorem defaultId_expires (i : String) (hunt : Hunt) :
    (defaultId i hunt).expires = hunt.expires := by
  unfold defaultId
  split <;> rfl

@[simp] theorem defaultId_state (i : String) (hunt : Hunt) :
    (defaultId i hunt).state = hunt.state := by
  unfold defaultId
  split <;> rfl

@[simp] theorem defaultId_stats (i : String) (hunt : Hunt) :
    (defaultId i hunt).stats = hunt.stats := by
  unfold defaultId
  split <;> rfl

/-- Field facts for `stampTimes`. -/
@[simp] theorem stampTimes_createTime (now : Nat) (hunt : Hunt) :
    (stampTimes now hunt).createTime = now := by
  simp only [stampTimes]
  split <;> rfl

@[simp] theorem stampTimes_expires (now : Nat) (hunt : Hunt) :
    (stampTimes now hunt).expires =
      if hunt.expires = 0 then now + sevenDays else hunt.expires := by
  simp only [stampTimes]
  split <;> simp_all

@[simp] theorem stampTimes_state (now : Nat) (hunt : Hunt) :
    (stampTimes now hunt).state = hunt.state := by
  simp only [stampTimes]
  split <;> rfl

/-- Field preservation for `denormalize`. -/
@[simp] theorem denormalize_state (env : CreateEnv) (arts : List String)
    (hunt : Hunt) : (denormalize env arts hunt).state = hunt.state := by
  rfl

/-- Field preservation for `appendCompiled`. -/
@[simp] theorem appendCompiled_state (sr : StartRequest)
    (compiled : List String) (hunt : Hunt) :
    (appendCompiled sr compiled hunt).state = hunt.state := by
  rfl

/-- C3 counterexample: the claim says a generated hunt id is the fixed
tag followed by the hex encoding of an 8-byte random value (16 hex
characters, a 2^64 space). On the concrete random bytes de:ad:be:ef the
generated id has only 8 hex characters after the tag — `GetNewHuntId`
hex-encodes a 4-byte buffer, so the space is 2^32, refuting the claim. -/
theorem getNewHuntId_refutes_eight_byte_claim :
    (GetNewHuntId 222 173 190 239).length ≠ huntTypeTag.length + 16 ∧
    (GetNewHuntId 222 173 190 239).length = huntTypeTag.length + 8 ∧
    GetNewHuntId 222 173 190 239 = huntTypeTag ++ "deadbeef" := by
  decide

/-- C3 (amended): every generated hunt identifier is the fixed type
tag followed by the lowercase hex encoding of the 4-byte value drawn
from the random source (8 hex characters, a 2^32 identifier space);
distinct 4-byte values give distinct identifiers. -/
theorem getNewHuntId_four_byte_hex (b0 b1 b2 b3 c0 c1 c2 c3 : Nat)
    (hb0 : b0 < 256) (hb1 : b1 < 256) (hb2 : b2 < 256) (hb3 : b3 < 256)
    (hc0 : c0 < 256) (hc1 : c1 < 256) (hc2 : c2 < 256) (hc3 : c3 < 256) :
    (GetNewHuntId b0 b1 b2 b3).length = huntTypeTag.length + 8 ∧
    (GetNewHuntId b0 b1 b2 b3 = GetNewHuntId c0 c1 c2 c3 →
      b0 = c0 ∧ b1 = c1 ∧ b2 = c2 ∧ b3 = c3) := by
  constructor
  · have hlen := hexEncode_length [b0, b1, b2, b3]
    simp [GetNewHuntId, String.length_append] at hlen ⊢
    omega
  · intro heq
    have hdata := congrArg String.data heq
    simp only [GetNewHuntId, String.data_append] at hdata
    have h2 := List.append_cancel_left hdata
    simp only [hexEncode, hexEncodeByte, List.map, List.flatten] at h2
    simp only [List.cons_append, List.nil_append, List.cons.injEq,
      and_true] at h2
    obtain ⟨e0h, e0l, e1h, e1l, e2h, e2l, e3h, e3l⟩ := h2
    have d0h := hexDigitChar_inj _ (by omega) _ (by omega) e0h
    have d0l := hexDigitChar_inj _ (by omega) _ (by omega) e0l
    have d1h := hexDigitChar_inj _ (by omega) _ (by omega) e1h
    have d1l := hexDigitChar_inj _ (by omega) _ (by omega) e1l
    have d2h := hexDigitChar_inj _ (by omega) _ (by omega) e2h
    have d2l := hexDigitChar_inj _ (by omega) _ (by omega) e2l
    have d3h := hexDigitChar_inj _ (by omega) _ (by omega) e3h
    have d3l := hexDigitChar_inj _ (by omega) _ (by omega) e3l
    refine ⟨by omega, by omega, by omega, by omega⟩

/-- C3 witness: the amended theorem applied to concrete bytes. -/
theorem getNewHuntId_four_byte_hex_witness :
    (GetNewHuntId 222 173 190 239).length = huntTypeTag.length + 8 ∧
    (GetNewHuntId 222 173 190 239 = GetNewHuntId 222 173 190 239 →
      (222 : Nat) = 222 ∧ (173 : Nat) = 173 ∧ (190 : Nat) = 190 ∧
      (239 : Nat) = 239) :=
  getNewHuntId_four_byte_hex 222 173 190 239 222 173 190 239
    (by decide) (by decide) (by decide) (by decide)
    (by decide) (by decide) (by decide) (by decide)

/-- C1: the `ModifyHunt` mutator's own documentation and the spec
permit only PAUSED→RUNNING, RUNNING→STOPPED, non-archived→ARCHIVED and
description edits, making ARCHIVED terminal. The code never consults
the hunt's current state: on a hunt in state ARCHIVED (with
`Stats.Stopped` false) a request for state RUNNING returns success and
sets the state to RUNNING, contradicting the claimed transition table. -/
theorem modifyHunt_archived_to_running_accepted :
    (huntModifier {} { state := HuntState.RUNNING }
      { huntId := "H.1", state := HuntState.ARCHIVED,
        stats := some { stopped := false } }).err = none ∧
    (huntModifier {} { state := HuntState.RUNNING }
      { huntId := "H.1", state := HuntState.ARCHIVED,
        stats := some { stopped := false } }).hunt.state =
      HuntState.RUNNING := by
  decide

/-- C2: the claim (and the spec) say `ListHunts` skips the first
`offset` matching hunts and then collects up to `count`. The code
instead compares the number of *collected* items (always zero while
skipping) against `offset`, so with any positive offset every hunt is
skipped: on a mirror of two non-archived hunts, offset=1 count=1
returns the empty list rather than the second hunt. -/
theorem listHunts_positive_offset_returns_empty :
    ListHunts { offset := 1, count := 1 }
      [{ huntId := "H.a", state := HuntState.PAUSED, createTime := 1 },
       { huntId := "H.b", state := HuntState.PAUSED, createTime := 2 }] =
      ([], none) := by
  decide

/-- Helper: with offset 0, the collection loop of `ListHunts` gathers
exactly the first matching hunts in mirror order, up to capacity. -/
theorem listHuntsGo_offset_zero (req : ListHuntsRequest)
    (h0 : req.offset = 0) (mirror : List Hunt) :
    ∀ acc : List Hunt, acc.length ≤ req.count →
      (listHuntsGo req mirror acc).1 =
        acc ++ (mirror.filter (listHuntsKeep req)).take
          (req.count - acc.length) := by
  induction mirror with
  | nil => intro acc _; simp [listHuntsGo]
  | cons h rest ih =>
    intro acc hacc
    simp only [listHuntsGo, h0]
    rcases Nat.lt_or_ge acc.length req.count with hlt | hge
    · rw [if_neg (by omega), if_neg (by omega)]
      by_cases hk : req.includeArchived = true ∨
          h.state ≠ HuntState.ARCHIVED
      · rw [if_pos hk]
        have hkeep : listHuntsKeep req h = true := by
          rcases hk with h' | h' <;> simp [listHuntsKeep, h']
        rw [ih (acc ++ [h]) (by simp; omega)]
        have htake : req.count - acc.length =
            (req.count - (acc.length + 1)) + 1 := by omega
        simp [List.filter_cons, hkeep, htake, List.take_succ_cons]
      · rw [if_neg hk]
        have hkeep : listHuntsKeep req h = false := by
          push_neg at hk
          simp [listHuntsKeep, hk.1, hk.2]
        rw [ih acc (Nat.le_of_lt hlt)]
        simp [List.filter_cons, hkeep]
    · rw [if_neg (by omega), if_pos (by omega)]
      have : req.count - acc.length = 0 := by omega
      simp [this]

/-- C7 counterexample: on a mirror of 5 non-archived hunts presented
in creation order t1<…<t5, `ListHunts(offset=0, count=2)` collects the
first two hunts of the mirror (t1 and t2) and sorts those, returning
create times [2, 1] — not the newest two [5, 4] the claim requires for
every mirror iteration order. -/
theorem listHunts_first_two_not_newest :
    ((ListHunts { offset := 0, count := 2 } mirrorAsc).1.map
      Hunt.createTime) = [2, 1] ∧ ([2, 1] : List Nat) ≠ [5, 4] := by
  decide

/-- C7 (amended): with offset 0, `ListHunts` returns the first `count`
matching (non-archived unless requested) hunts in mirror iteration
order, sorted by `CreateTime` descending after collection, and reports
no error; the two most-recently created hunts are returned only when
mirror order happens to present them among the first two matches. -/
theorem listHunts_offset_zero_first_matches (req : ListHuntsRequest)
    (h0 : req.offset = 0) (mirror : List Hunt) :
    ListHunts req mirror =
      (sortByCreateTimeDesc
        ((mirror.filter (listHuntsKeep req)).take req.count), none) := by
  unfold ListHunts
  have h1 := listHuntsGo_offset_zero req h0 mirror [] (by simp)
  simp only [List.nil_append, Nat.sub_zero] at h1
  simp only [h1]
  rcases h2 : (listHuntsGo req mirror []).2 with _ | e
  · rfl
  · cases e
    rfl

/-- C7 witness: the amended theorem applied at offset=0, count=2 on
the concrete ascending mirror. -/
theorem listHunts_offset_zero_first_matches_witness :
    ListHunts { offset := 0, count := 2, includeArchived := false }
        mirrorAsc =
      (sortByCreateTimeDesc
        ((mirrorAsc.filter (listHuntsKeep
          { offset := 0, count := 2, includeArchived := false })).take 2),
       none) :=
  listHunts_offset_zero_first_matches
    { offset := 0, count := 2, includeArchived := false } rfl mirrorAsc

/-- C6: a state-change request for RUNNING (no description edit) on a
hunt whose `Stats.Stopped` flag is set fails with an error and leaves
the hunt record unchanged; with the flag clear, the PAUSED→RUNNING
transition succeeds and stamps `StartTime` with the current time. -/
theorem modifyHunt_stopped_flag_gates_running (env : ModifyEnv)
    (hm hunt : Hunt) (s : HuntStats) (hstats : hunt.stats = some s)
    (hdesc : hm.huntDescription = "")
    (hrun : hm.state = HuntState.RUNNING) :
    (s.stopped = true →
      (huntModifier env hm hunt).err =
        some "Can not start a stopped hunt." ∧
      (huntModifier env hm hunt).hunt = hunt) ∧
    (s.stopped = false → hunt.state = HuntState.PAUSED →
      huntModifier env hm hunt =
        ⟨none, { hunt with
                  state := HuntState.RUNNING,
                  startTime := env.now }⟩) := by
  unfold huntModifier
  rw [hstats]
  constructor
  · intro hstop
    simp [hdesc, hrun, hstop]
  · intro hstop _
    simp [hdesc, hrun, hstop]

/-- C6 witness: the theorem applied to a stopped STOPPED hunt and to a
startable PAUSED hunt. -/
theorem modifyHunt_stopped_flag_gates_running_witness :
    ((({ stopped := true } : HuntStats).stopped = true →
      (huntModifier {} runRequest stoppedHunt).err =
        some "Can not start a stopped hunt." ∧
      (huntModifier {} runRequest stoppedHunt).hunt = stoppedHunt) ∧
     (({ stopped := true } : HuntStats).stopped = false →
      stoppedHunt.state = HuntState.PAUSED →
      huntModifier {} runRequest stoppedHunt =
        ⟨none, { stoppedHunt with
                  state := HuntState.RUNNING,
                  startTime := 0 }⟩)) ∧
    ((({ stopped := false } : HuntStats).stopped = true →
      (huntModifier {} runRequest pausedHunt).err =
        some "Can not start a stopped hunt." ∧
      (huntModifier {} runRequest pausedHunt).hunt = pausedHunt) ∧
     (({ stopped := false } : HuntStats).stopped = false →
      pausedHunt.state = HuntState.PAUSED →
      huntModifier {} runRequest pausedHunt =
        ⟨none, { pausedHunt with
                  state := HuntState.RUNNING,
                  startTime := 0 }⟩)) :=
  ⟨modifyHunt_stopped_flag_gates_running {} runRequest stoppedHunt
      { stopped := true } rfl rfl rfl,
   modifyHunt_stopped_flag_gates_running {} runRequest pausedHunt
      { stopped := false } rfl rfl rfl⟩

/-- C10: a modification request with an empty description and a
desired state that is neither ARCHIVED nor RUNNING (for example PAUSED
or UNSET) lands in the mutator's final else branch, which sets the
hunt's state to STOPPED and reports success whatever the hunt's
current state was (only a present `Stats` is required). -/
theorem modifyHunt_other_state_sets_stopped (env : ModifyEnv)
    (hm hunt : Hunt) (s : HuntStats) (hstats : hunt.stats = some s)
    (hdesc : hm.huntDescription = "")
    (harch : hm.state ≠ HuntState.ARCHIVED)
    (hrun : hm.state ≠ HuntState.RUNNING) :
    huntModifier env hm hunt =
      ⟨none, { hunt with state := HuntState.STOPPED }⟩ := by
  unfold huntModifier
  rw [hstats]
  simp [hdesc, harch, hrun]

/-- C10 witness: a PAUSED-state request against an ARCHIVED hunt is
accepted and stops the hunt. -/
theorem modifyHunt_other_state_sets_stopped_witness :
    huntModifier {} pauseRequest archivedHunt =
      ⟨none, { archivedHunt with state := HuntState.STOPPED }⟩ :=
  modifyHunt_other_state_sets_stopped {} pauseRequest archivedHunt
    { stopped := false } rfl rfl (by decide) (by decide)

/-- C4 counterexample: the claim says a request with a non-nil but
zero-length artifact list is rejected and nothing is persisted. The
code only tests `hunt.StartRequest.Artifacts == nil`, so an empty
non-nil list passes validation: `CreateHunt` returns no error, reaches
the durable write, and returns the generated id. -/
theorem createHunt_accepts_empty_artifact_list :
    (CreateHunt envGood huntEmptyArtifactList).err = none ∧
    (CreateHunt envGood huntEmptyArtifactList).setSubjectCalled = true ∧
    (CreateHunt envGood huntEmptyArtifactList).huntId = "H.deadbeef" := by
  decide

/-- C4 (amended): `CreateHunt` rejects with the validation error, and
without reaching the durable write, exactly when `StartRequest` is nil
or its artifact slice is nil; a non-nil but zero-length artifact list
is not caught by this validation. -/
theorem createHunt_nil_artifacts_rejected (env : CreateEnv)
    (hunt : Hunt) (hdb : env.db = Except.ok ())
    (h : hunt.startRequest = none ∨
      ∃ sr, hunt.startRequest = some sr ∧ sr.artifacts = none) :
    (CreateHunt env hunt).err = some "No artifacts to collect." ∧
    (CreateHunt env hunt).setSubjectCalled = false := by
  simp only [CreateHunt, hdb]
  rcases h with h | ⟨sr, hsr, ha⟩ <;> (repeat' split) <;> simp_all

/-- C4 witness: the amended theorem applied to a nil artifact slice in
the all-services-succeed environment. -/
theorem createHunt_nil_artifacts_rejected_witness :
    (CreateHunt envGood huntNilArtifacts).err =
      some "No artifacts to collect." ∧
    (CreateHunt envGood huntNilArtifacts).setSubjectCalled = false :=
  createHunt_nil_artifacts_rejected envGood huntNilArtifacts rfl
    (Or.inr ⟨{ artifacts := none }, rfl, rfl⟩)

/-- C9: when the caller's record arrives with an empty `HuntId`, no
`Stats` and a missing artifact list, `CreateHunt` fails validation yet
has already mutated the record: it carries the freshly generated id
and a zero-value `Stats` on return, so the input is not left unchanged
by the failed call. -/
theorem createHunt_mutates_input_before_validation (env : CreateEnv)
    (hunt : Hunt) (hdb : env.db = Except.ok ())
    (hid : hunt.huntId = "") (hstats : hunt.stats = none)
    (h : hunt.startRequest = none ∨
      ∃ sr, hunt.startRequest = some sr ∧ sr.artifacts = none)
    (hfresh : env.freshId ≠ "") :
    (CreateHunt env hunt).err = some "No artifacts to collect." ∧
    (CreateHunt env hunt).hunt.huntId = env.freshId ∧
    (CreateHunt env hunt).hunt.stats = some zeroStats ∧
    (CreateHunt env hunt).hunt ≠ hunt := by
  have hds : defaultStats hunt = { hunt with stats := some zeroStats } := by
    simp [defaultStats, hstats]
  have hdi : defaultId env.freshId (defaultStats hunt) =
      { hunt with stats := some zeroStats, huntId := env.freshId } := by
    rw [hds]
    simp [defaultId, hid]
  have hstep : CreateHunt env hunt =
      ⟨"", some "No artifacts to collect.",
       { hunt with stats := some zeroStats, huntId := env.freshId },
       false⟩ := by
    simp only [CreateHunt, hdb, hdi]
    rcases h with h | ⟨sr, hsr, ha⟩
    · simp [h]
    · simp [hsr, ha]
  rw [hstep]
  refine ⟨rfl, rfl, rfl, ?_⟩
  intro heq
  apply hfresh
  have := congrArg Hunt.huntId heq
  simpa [hid] using this

/-- C9 witness: the theorem applied to the all-defaults record. -/
theorem createHunt_mutates_input_before_validation_witness :
    (CreateHunt envGood emptyHunt).err =
      some "No artifacts to collect." ∧
    (CreateHunt envGood emptyHunt).hunt.huntId = envGood.freshId ∧
    (CreateHunt envGood emptyHunt).hunt.stats = some zeroStats ∧
    (CreateHunt envGood emptyHunt).hunt ≠ emptyHunt :=
  createHunt_mutates_input_before_validation envGood emptyHunt rfl rfl
    rfl (Or.inl rfl) (by decide)

/-- C5: if any of the enumerated steps fails before the durable-store
write, `CreateHunt` returns an error and `db.SetSubject` is never
reached, so no durable hunt record is written. -/
theorem createHunt_early_failure_no_persist (env : CreateEnv)
    (hunt : Hunt) (h : createHuntEarlyFailure env hunt) :
    (CreateHunt env hunt).err.isSome = true ∧
    (CreateHunt env hunt).setSubjectCalled = false := by
  unfold createHuntEarlyFailure at h
  simp only [CreateHunt]
  rcases h with h | ⟨sr, hsr, ha⟩ | ⟨hne, hlt⟩ | ⟨e, he⟩ | ⟨e, he⟩ |
    ⟨e, he⟩ | ⟨hst, e, he⟩ <;>
    (repeat' split) <;> simp_all

/-- C5 witness: the theorem applied to a compilation failure on an
otherwise valid request. -/
theorem createHunt_early_failure_no_persist_witness :
    (CreateHunt envCompileFails huntValid).err.isSome = true ∧
    (CreateHunt envCompileFails huntValid).setSubjectCalled = false :=
  createHunt_early_failure_no_persist envCompileFails huntValid
    (Or.inr (Or.inr (Or.inr (Or.inr (Or.inr (Or.inl
      ⟨"compile failed", rfl⟩))))))
